import Mathlib

/-!
Verification of the SteamScraping harvesting engine against its
natural-language specification.

The development is a shallow embedding of the core of the repository
(`src/FileSystem.py`, `src/RateLimiter.py`, `src/BaseScraper.py`,
`src/SteamSpyScraper.py`, `src/RAWGScraper.py`, `src/IGDBScraper.py`).

Modelling conventions, fixed once for the whole file:
* JSON objects are association lists `List (String × PyVal)`; `dict.get(k)`
  is association lookup returning `Option PyVal`.
* Python truthiness is modelled explicitly where the code branches on it
  (`if data:` on an `Optional[dict]`, `if game.get('id') ...`).
* A file is modelled at line granularity: `Option (List String)`, `none`
  meaning the file does not exist.  `FileSystem.append_line` /
  `FileSystem.append_jsonl` append one line; the per-line temp-file dance of
  the atomic sink is below this granularity and is not modelled.
* HTTP interactions are oracles passed as functions: the page-listing
  endpoint, the per-item detail endpoint, the auth endpoint.  The index fed
  to an oracle is the sequence number of the call, so a trace of responses
  is a function `Nat → ...`.
* Timestamps and durations are integer microseconds (the asyncio event-loop
  clock has finite resolution); `0.25` seconds is `250000`.
* The run state carries an instrumentation trace `events` recording, in
  program order, each append to the output file (`SinkEvent.write id`, from
  `fs.append_jsonl`) and each append to the progress ledger
  (`SinkEvent.mark id`, from `save_progress`), tagged with the identifier of
  the item being processed.
-/

/-- A JSON-ish scalar value appearing in provider payloads. -/
inductive PyVal where
  | num (n : Int)
  | str (s : String)
  | null
deriving DecidableEq

/-- A JSON object: association list of keys to scalar values. -/
abbrev PyRecord := List (String × PyVal)

/-- Python `d.get(k)`: `none` when the key is absent. -/
def getKey (r : PyRecord) (k : String) : Option PyVal :=
  (r.find? (fun p => p.1 == k)).map (fun p => p.2)

/-- Python truthiness of `d.get(k)`: absent key and `None` are falsy, `0` and
the empty string are falsy. -/
def valTruthy : Option PyVal → Bool
  | none => false
  | some (PyVal.num n) => n != 0
  | some (PyVal.str s) => s != ""
  | some PyVal.null => false

/-- Python `str(v)` for the result of `d.get(k)` (`str(None) = "None"`). -/
def pyStr : Option PyVal → String
  | none => "None"
  | some (PyVal.num n) => toString n
  | some (PyVal.str s) => s
  | some PyVal.null => "None"

/-- Python `line.strip()` restricted to whitespace trimming, written as a
structurally recursive function over the character list (the model of
`str.strip()` used by `FileSystem.read_lines`). -/
def pyStrip (s : String) : String :=
  String.mk (((s.data.dropWhile Char.isWhitespace).reverse.dropWhile Char.isWhitespace).reverse)

/-- FileSystem.read_lines (src/FileSystem.py lines 98-103): a missing file
yields the empty set; otherwise each line is stripped, blank lines are
dropped, and the result is a set (modelled as a deduplicated list, used only
through membership). -/
def FileSystem.read_lines (file : Option (List String)) : List String :=
  match file with
  | none => []
  | some ls => ((ls.map pyStrip).filter (fun s => s != "")).dedup

/-- One durable side effect of the scrape loop, in program order: a record
appended to the output file, or an identifier appended to the progress
ledger.  The identifier tag on `write` is instrumentation naming the item
whose serialized record was appended. -/
inductive SinkEvent where
  | write (id : String)
  | mark (id : String)
deriving DecidableEq

/-- The file-visible state a scrape run accumulates: output records
(`<provider>_data.jsonl`), ledger lines (`scraped_*.txt`), the ordered event
trace, and the running count of newly persisted items. -/
structure RunState where
  output : List PyRecord
  ledger : List String
  events : List SinkEvent
  total : Nat
deriving DecidableEq

/-- Fresh run state: empty output, empty ledger, zero count. -/
def RunState.init : RunState := ⟨[], [], [], 0⟩

/-- FileSystem.append_jsonl on the output file (instrumented with the id of
the item whose record is appended). -/
def RunState.append_jsonl (st : RunState) (id : String) (d : PyRecord) : RunState :=
  { st with output := st.output ++ [d], events := st.events ++ [SinkEvent.write id] }

/-- BaseScraper.save_progress (src/BaseScraper.py lines 66-74): appends the
identifier to the progress file via FileSystem.append_line.  It does NOT
touch any in-memory set. -/
def RunState.save_progress (st : RunState) (id : String) : RunState :=
  { st with ledger := st.ledger ++ [id], events := st.events ++ [SinkEvent.mark id] }

/-- The success path of one item: `fs.append_jsonl(data, output)` then
`save_progress(id, progress)` then `new_count += 1`, in that order
(src/SteamSpyScraper.py lines 157-159, src/RAWGScraper.py lines 86-88,
src/IGDBScraper.py lines 154-156). -/
def RunState.persist (st : RunState) (id : String) (d : PyRecord) : RunState :=
  { (st.append_jsonl id d).save_progress id with total := st.total + 1 }

/-- Outcome of one HTTP call: a 200 payload, a non-200 status, or a raised
transport exception. -/
inductive Fetch (α : Type) where
  | ok (payload : α)
  | httpErr (code : Nat)
  | exn
deriving DecidableEq

/-- SteamSpyScraper._get_all_apps (lines 70-89): non-200 statuses and
exceptions are logged and collapse to the empty dict; the caller only uses
the keys of the payload, so the payload is modelled as its key list
(after the `int(appid)` conversion at line 143). -/
def get_all_apps (resp : Fetch (List Nat)) : List Nat :=
  match resp with
  | Fetch.ok l => l
  | Fetch.httpErr _ => []
  | Fetch.exn => []

/-- SteamSpyScraper._fetch_app_details (lines 91-119): non-200 and
exceptions give None; a 200 payload whose `appid` equals the hidden-data
sentinel `999999` is filtered to None; otherwise the payload is returned. -/
def fetch_app_details (resp : Fetch PyRecord) : Option PyRecord :=
  match resp with
  | Fetch.ok d => if getKey d "appid" == some (PyVal.num 999999) then none else some d
  | Fetch.httpErr _ => none
  | Fetch.exn => none

/-- The body of the per-app loop in SteamSpyScraper.scrape (lines 147-159):
skip when `str(appid)` is in the set loaded at session start (which is never
updated during the run); otherwise fetch details, and on a truthy result
append the record to the output file, then mark progress, then count it. -/
def ssProcessApp (scraped_ids : List String) (f : Nat → Fetch PyRecord)
    (st : RunState) (appid : Nat) : RunState :=
  if scraped_ids.contains (toString appid) then st
  else
    match fetch_app_details (f appid) with
    | some d =>
      if d.isEmpty then st
      else st.persist (toString appid) d
    | none => st

/-- The per-page inner loop of SteamSpyScraper.scrape over the app ids of
one page. -/
def ssPage (scraped_ids : List String) (f : Nat → Fetch PyRecord)
    (st : RunState) (app_ids : List Nat) : RunState :=
  app_ids.foldl (ssProcessApp scraped_ids f) st

/-- SteamSpy session metadata (lines 170-175); the two timestamp fields are
not modelled. -/
structure SSMetadata where
  pages_scraped : Nat
  apps_scraped : Nat
deriving DecidableEq

/-- Result of SteamSpyScraper.scrape: accumulated file state, the metadata
written via fs.save_json (atomic replace), the number of page-listing
requests issued, and the returned count. -/
structure SSResult where
  run : RunState
  metadata : SSMetadata
  pagesFetched : Nat
  ret : Nat
deriving DecidableEq

/-- SteamSpyScraper.scrape (lines 121-178).  `load_progress` reads the
progress file once, before the loop; the loop visits every page index in
`range(pages)` (an empty or failed page listing is skipped with `continue`,
never `break`), so the page-listing request count equals the configured page
count; the metadata records `pages_scraped = self.pages`, the configured
count.  Inter-page and per-app delays do not affect file state and are not
modelled here (the rate limiter is modelled separately). -/
def SteamSpyScraper.scrape (pages : Nat) (pr : Nat → Fetch (List Nat))
    (f : Nat → Fetch PyRecord) (progressFile : Option (List String)) : SSResult :=
  let scraped_ids := FileSystem.read_lines progressFile
  let run := (List.range pages).foldl
    (fun st page =>
      let apps := get_all_apps (pr page)
      if apps.isEmpty then st
      else ssPage scraped_ids f st apps) RunState.init
  { run := run
    metadata := { pages_scraped := pages, apps_scraped := run.total }
    pagesFetched := pages
    ret := run.total }

/-- Methods defined on BaseScraper (src/BaseScraper.py).  Python resolves an
attribute access `self.m` against the instance class and then its bases;
these tables are the transcription of the `def` statements of each class. -/
def BaseScraper.methods : List String :=
  ["__init__", "_print", "__aenter__", "__aexit__", "scrape", "log_error",
   "save_progress", "load_progress", "progress_bar", "process_items_in_batches"]

/-- Methods defined on RAWGScraper (src/RAWGScraper.py). -/
def RAWGScraper.methods : List String :=
  ["__init__", "_request", "scrape"]

/-- Methods defined on IGDBScraper (src/IGDBScraper.py). -/
def IGDBScraper.methods : List String :=
  ["__init__", "_get_access_token", "_request", "scrape"]

/-- Methods defined on FileSystem (src/FileSystem.py). -/
def FileSystem.methods : List String :=
  ["__init__", "get_output_path", "append_jsonl", "append_line", "read_lines", "save_json"]

/-- Python attribute resolution for a scraper instance: the instance class,
then BaseScraper. -/
def resolvesMethod (own : List String) (name : String) : Bool :=
  own.contains name || BaseScraper.methods.contains name

/-- How a Python call ends: a normal return value, a raised exception, or
never returning (the unbounded recursion of IGDBScraper._request). -/
inductive PyResult where
  | returned (n : Nat)
  | raised (msg : String)
  | hung
deriving DecidableEq

/-- The validity check on a RAWG detail payload (src/RAWGScraper.py line 85):
`if details and details.get('id') and details.get('name')` — `details` is a
truthy (nonempty) dict and both fields are truthy. -/
def rawgDetailOK (d : PyRecord) : Bool :=
  !d.isEmpty && valTruthy (getKey d "id") && valTruthy (getKey d "name")

/-- The body of the per-game loop in RAWGScraper.scrape (lines 73-88):
`game_id = str(game.get('id'))`; skip when already in the set loaded at
session start; fetch details through `_request` (None on any error); on a
valid payload append to the output file, then mark progress, then count. -/
def rawgProcessGame (scraped_ids : List String) (detail : String → Option PyRecord)
    (st : RunState) (game : PyRecord) : RunState :=
  let game_id := pyStr (getKey game "id")
  if scraped_ids.contains game_id then st
  else
    match detail game_id with
    | some d => if rawgDetailOK d then st.persist game_id d else st
    | none => st

/-- The page loop of RAWGScraper.scrape (lines 64-90), recursion over the
page indices `range(1, pages+1)` so that `break` is a non-recursive return.
The list response is a JSON object whose array-valued fields are modelled;
`if not data or 'results' not in data: break` stops pagination when the
request failed, the dict is falsy (empty), or the key is absent.  The
returned `Nat` is the final value of the Python loop variable `page`. -/
def rawgPages (scraped_ids : List String)
    (lr : Nat → Option (List (String × List PyRecord)))
    (detail : String → Option PyRecord) :
    List Nat → Nat → RunState → RunState × Nat
  | [], page, st => (st, page)
  | p :: rest, _, st =>
    match lr p with
    | none => (st, p)
    | some data =>
      if data.isEmpty then (st, p)
      else
        match (data.find? (fun q => q.1 == "results")).map (fun q => q.2) with
        | none => (st, p)
        | some games =>
          rawgPages scraped_ids lr detail rest p
            (games.foldl (rawgProcessGame scraped_ids detail) st)

/-- RAWG session metadata (lines 92-96); `api_key_hash` is not modelled. -/
structure RawgMetadata where
  pages_scraped : Nat
  games_scraped : Nat
deriving DecidableEq

/-- Result of RAWGScraper.scrape: file state, the metadata if any was
written, and how the call ended. -/
structure RawgResult where
  run : RunState
  metadataWritten : Option RawgMetadata
  ret : PyResult
deriving DecidableEq

/-- RAWGScraper.scrape (lines 51-98).  After the loop the code calls
`self.save_metadata(...)` (line 92); Python evaluates the attribute access
before the argument dict, and `save_metadata` is defined neither on
RAWGScraper nor on BaseScraper, so the access raises AttributeError and no
metadata is written. -/
def RAWGScraper.scrape (pages : Nat)
    (lr : Nat → Option (List (String × List PyRecord)))
    (detail : String → Option PyRecord)
    (progressFile : Option (List String)) : RawgResult :=
  let scraped_ids := FileSystem.read_lines progressFile
  let r := rawgPages scraped_ids lr detail (List.range' 1 pages) 0 RunState.init
  if resolvesMethod RAWGScraper.methods "save_metadata" then
    { run := r.1
      metadataWritten := some { pages_scraped := r.2, games_scraped := r.1.total }
      ret := PyResult.returned r.1.total }
  else
    { run := r.1
      metadataWritten := none
      ret := PyResult.raised "AttributeError: RAWGScraper object has no attribute save_metadata" }

/-- The token-cache state of IGDBScraper plus instrumentation counters: how
many auth POSTs and how many API POSTs have been issued so far (the counters
also index the response oracles). -/
structure IGDBAuth where
  access_token : Option String
  authCalls : Nat
  reqCalls : Nat
deriving DecidableEq

/-- IGDBScraper._get_access_token (lines 43-71).  A cached token is returned
as long as it is set: `token_expires_at` is set ~59 days in the future on
each refresh (`expires_in - 3600` with a 60-day default), so within one
session the cache only misses when `access_token` was cleared by the 401
path.  On a cache miss the auth endpoint is POSTed: oracle `ar` gives the
token of the k-th auth call, or `none` for a failed auth (non-200 or
exception, both of which return None). -/
def get_access_token (ar : Nat → Option String) (st : IGDBAuth) :
    Option String × IGDBAuth :=
  match st.access_token with
  | some t => (some t, st)
  | none =>
    match ar st.authCalls with
    | some t => (some t, { st with access_token := some t, authCalls := st.authCalls + 1 })
    | none => (none, { st with authCalls := st.authCalls + 1 })

/-- Outcome of one IGDB API POST: 200 with a list of games, 401
(token expired), another non-200 status, or a transport exception. -/
inductive IGDBResp where
  | ok (games : List PyRecord)
  | unauthorized
  | httpErr (code : Nat)
  | exn
deriving DecidableEq

/-- IGDBScraper._request (lines 73-108), with explicit recursion fuel.  The
code path on a 401 is `self.access_token = None` followed by
`return await self._request(endpoint, body)` — a recursive call with no
retry counter, so the recursion depth is bounded only by the fuel:
`(st, none)` means the fuel ran out with the request still retrying.
`some none` is a surfaced failure (auth failure, non-200, exception);
`some (some games)` is a success.  The rate limiter inside the call does
not affect the returned value and is modelled separately. -/
def igdbRequest (ar : Nat → Option String) (mr : Nat → IGDBResp) :
    Nat → IGDBAuth → IGDBAuth × Option (Option (List PyRecord))
  | 0, st => (st, none)
  | fuel + 1, st =>
    match get_access_token ar st with
    | (none, st1) => (st1, some none)
    | (some _, st1) =>
      let st2 := { st1 with reqCalls := st1.reqCalls + 1 }
      match mr st1.reqCalls with
      | IGDBResp.unauthorized => igdbRequest ar mr fuel { st2 with access_token := none }
      | IGDBResp.ok games => (st2, some (some games))
      | IGDBResp.httpErr _ => (st2, some none)
      | IGDBResp.exn => (st2, some none)

/-- The body of the per-game loop in IGDBScraper.scrape (lines 144-156):
IGDB writes the record straight from the page listing; skip when the id is
in the set loaded at session start; persist when `game.get('id')` and
`game.get('name')` are truthy. -/
def igdbProcessGame (scraped_ids : List String) (st : RunState) (game : PyRecord) : RunState :=
  let game_id := pyStr (getKey game "id")
  if scraped_ids.contains game_id then st
  else
    if valTruthy (getKey game "id") && valTruthy (getKey game "name") then
      st.persist game_id game
    else st

/-- The page loop of IGDBScraper.scrape (lines 123-163) over
`range(pages)`.  `if not games or len(games) == 0: break` treats a surfaced
request failure (None) and an empty list as the end of data; a page shorter
than `page_size` also breaks after processing.  The `Bool` is `false` when
some `_request` call exhausted its fuel (the unbounded 401 retry), in which
case the loop never finishes.  The returned `Nat` is the final value of the
loop variable `page`. -/
def igdbPages (scraped_ids : List String) (ar : Nat → Option String)
    (mr : Nat → IGDBResp) (fuel page_size : Nat) :
    List Nat → Nat → IGDBAuth → RunState → RunState × Nat × Bool
  | [], page, _, st => (st, page, true)
  | p :: rest, _, a, st =>
    match igdbRequest ar mr fuel a with
    | (_, none) => (st, p, false)
    | (_, some none) => (st, p, true)
    | (a1, some (some games)) =>
      if games.isEmpty then (st, p, true)
      else
        let st1 := games.foldl (igdbProcessGame scraped_ids) st
        if games.length < page_size then (st1, p, true)
        else igdbPages scraped_ids ar mr fuel page_size rest p a1 st1

/-- IGDB session metadata (lines 165-170); `client_id` is not modelled. -/
structure IgdbMetadata where
  pages_scraped : Nat
  games_scraped : Nat
  page_size : Nat
deriving DecidableEq

/-- Result of IGDBScraper.scrape: file state, metadata if any was written,
and how the call ended. -/
structure IgdbResult where
  run : RunState
  metadataWritten : Option IgdbMetadata
  ret : PyResult
deriving DecidableEq

/-- IGDBScraper.scrape (lines 110-172) with `page_size = 500` (line 33).
As in RAWGScraper, the completion step calls the nonexistent
`self.save_metadata(...)` (line 165): the attribute access raises
AttributeError before the metadata dict is evaluated. -/
def IGDBScraper.scrape (pages fuel : Nat) (ar : Nat → Option String)
    (mr : Nat → IGDBResp) (progressFile : Option (List String)) : IgdbResult :=
  let scraped_ids := FileSystem.read_lines progressFile
  match igdbPages scraped_ids ar mr fuel 500 (List.range pages) 0 ⟨none, 0, 0⟩ RunState.init with
  | (run, _, false) => { run := run, metadataWritten := none, ret := PyResult.hung }
  | (run, page, true) =>
    if resolvesMethod IGDBScraper.methods "save_metadata" then
      { run := run
        metadataWritten := some { pages_scraped := page + 1, games_scraped := run.total, page_size := 500 }
        ret := PyResult.returned run.total }
    else
      { run := run
        metadataWritten := none
        ret := PyResult.raised "AttributeError: IGDBScraper object has no attribute save_metadata" }

/-- IGDBScraper.__init__ line 34: `RateLimiter(max(delay, 0.25))` — the rate
limiter interval is the caller-supplied delay clamped from below to 0.25 s
(250000 µs). -/
def IGDBScraper.rateInterval (delay : Int) : Int :=
  max delay 250000

/-- RateLimiter (src/RateLimiter.py; an identical copy is defined inline in
src/SteamSpyScraper.py lines 11-36): an interval and the time of the last
grant, shared behind an asyncio.Lock. -/
structure RateLimiter where
  interval : Int
  last_called : Int
deriving DecidableEq

/-- RateLimiter.__init__: last_called starts at 0. -/
def RateLimiter.mkNew (interval : Int) : RateLimiter := ⟨interval, 0⟩

/-- RateLimiter.__aenter__ (lines 21-29) executed at clock value `now`
(hold of the lock is implicit: callers are serialized, see `runAcquires`):
compute `wait_time = interval - (now - last_called)`; sleep exactly that
long when positive; then set `last_called` to the post-sleep clock reading.
Returns (time slept, completion time, updated limiter). -/
def RateLimiter.aenter (rl : RateLimiter) (now : Int) : Int × Int × RateLimiter :=
  let wait_time := rl.interval - (now - rl.last_called)
  let slept := if 0 < wait_time then wait_time else 0
  let fin := now + slept
  (slept, fin, ⟨rl.interval, fin⟩)

/-- A serialized sequence of acquisitions through one RateLimiter: the k-th
caller enters the critical section at clock value `ts k` and the lock hands
the updated limiter to the next caller.  Returns the list of
(time slept, completion time) pairs. -/
def runAcquires (rl : RateLimiter) : List Int → List (Int × Int)
  | [] => []
  | now :: rest =>
    let a := rl.aenter now
    (a.1, a.2.1) :: runAcquires a.2.2 rest

/-- Minimum spacing T between consecutive elements of a timestamp list. -/
def spaced (T : Int) : List Int → Prop
  | [] => True
  | [_] => True
  | a :: b :: rest => a + T ≤ b ∧ spaced T (b :: rest)

/-- The elements of a list are nondecreasing and bounded below by `x`
(a monotone clock: each caller reads a time no earlier than the previous
`last_called`). -/
def monoFrom (x : Int) : List Int → Prop
  | [] => True
  | t :: ts => x ≤ t ∧ monoFrom t ts

/-! Invariant layer: the event trace of a run is a concatenation of
(write, mark) pairs, one pair per persisted item, and the ledger collects
exactly the identifiers of those pairs. -/

/-- The event trace produced by persisting the given identifiers in order:
for each one, the output-file append strictly precedes the ledger append. -/
def pairsOf : List String → List SinkEvent
  | [] => []
  | id :: rest => SinkEvent.write id :: SinkEvent.mark id :: pairsOf rest

/-- The identifiers of the output-file appends of a trace, in order. -/
def writtenIds (evs : List SinkEvent) : List String :=
  evs.filterMap (fun e => match e with | SinkEvent.write id => some id | SinkEvent.mark _ => none)

theorem pairsOf_append (a b : List String) :
    pairsOf (a ++ b) = pairsOf a ++ pairsOf b := by
  induction a with
  | nil => simp [pairsOf]
  | cons x xs ih => simp [pairsOf, ih]

theorem writtenIds_pairsOf (l : List String) : writtenIds (pairsOf l) = l := by
  induction l with
  | nil => simp [pairsOf, writtenIds]
  | cons x xs ih =>
    simpa [pairsOf, writtenIds, List.filterMap_cons] using ih

theorem pairsOf_mark_after_write :
    ∀ (ids : List String) (l1 l2 : List SinkEvent) (id : String),
      pairsOf ids = l1 ++ SinkEvent.mark id :: l2 → SinkEvent.write id ∈ l1 := by
  intro ids
  induction ids with
  | nil =>
    intro l1 l2 id h
    cases l1 <;> simp [pairsOf] at h
  | cons a rest ih =>
    intro l1 l2 id h
    cases l1 with
    | nil => simp [pairsOf] at h
    | cons e l1a =>
      simp only [pairsOf, List.cons_append, List.cons.injEq] at h
      obtain ⟨he, h2⟩ := h
      cases l1a with
      | nil =>
        simp only [List.nil_append, List.cons.injEq] at h2
        obtain ⟨hm, _⟩ := h2
        cases hm
        simp [he]
      | cons e2 l1b =>
        simp only [List.cons_append, List.cons.injEq] at h2
        obtain ⟨_, h3⟩ := h2
        have := ih l1b l2 id h3
        simp [this]

@[simp] theorem RunState.persist_output (st : RunState) (id : String) (d : PyRecord) :
    (st.persist id d).output = st.output ++ [d] := rfl

@[simp] theorem RunState.persist_ledger (st : RunState) (id : String) (d : PyRecord) :
    (st.persist id d).ledger = st.ledger ++ [id] := rfl

@[simp] theorem RunState.persist_total (st : RunState) (id : String) (d : PyRecord) :
    (st.persist id d).total = st.total + 1 := rfl

@[simp] theorem RunState.persist_events (st : RunState) (id : String) (d : PyRecord) :
    (st.persist id d).events = st.events ++ [SinkEvent.write id, SinkEvent.mark id] := by
  simp [RunState.persist, RunState.append_jsonl, RunState.save_progress]

/-- A per-item step either leaves the run state unchanged or persists one
item whose identifier satisfies `C`. -/
def GoodStep {α : Type} (C : String → Prop) (g : RunState → α → RunState) : Prop :=
  ∀ st a, g st a = st ∨ ∃ id d, C id ∧ g st a = st.persist id d

/-- A step only appends to the ledger, and appends only identifiers
satisfying `C`. -/
def LedgerGrows {α : Type} (C : String → Prop) (g : RunState → α → RunState) : Prop :=
  ∀ st a, ∃ t, (g st a).ledger = st.ledger ++ t ∧ ∀ id ∈ t, C id

/-- A step preserves the run-state predicate `P`. -/
def PresIn {α : Type} (P : RunState → Prop) (g : RunState → α → RunState) : Prop :=
  ∀ st a, P st → P (g st a)

theorem GoodStep.ledgerGrows {α : Type} {C : String → Prop}
    {g : RunState → α → RunState} (hg : GoodStep C g) : LedgerGrows C g := by
  intro st a
  rcases hg st a with h | ⟨id, d, hC, h⟩
  · exact ⟨[], by simp [h], by simp⟩
  · exact ⟨[id], by simp [h], by simpa using hC⟩

theorem LedgerGrows.foldlGrows {α : Type} {C : String → Prop}
    {g : RunState → α → RunState} (hg : LedgerGrows C g) :
    LedgerGrows C (fun st (l : List α) => l.foldl g st) := by
  intro st l
  induction l generalizing st with
  | nil => exact ⟨[], by simp, by simp⟩
  | cons a l ih =>
    obtain ⟨t1, ht1, hc1⟩ := hg st a
    obtain ⟨t2, ht2, hc2⟩ := ih (g st a)
    refine ⟨t1 ++ t2, ?_, ?_⟩
    · simp only [List.foldl_cons] at *
      rw [ht2, ht1, List.append_assoc]
    · intro id hid
      rcases List.mem_append.mp hid with h | h
      · exact hc1 id h
      · exact hc2 id h

theorem PresIn.foldlPres {α : Type} {P : RunState → Prop}
    {g : RunState → α → RunState} (hg : PresIn P g) :
    PresIn P (fun st (l : List α) => l.foldl g st) := by
  intro st l
  induction l generalizing st with
  | nil => exact fun h => h
  | cons a l ih =>
    intro h
    exact ih (g st a) (hg st a h)

theorem GoodStep.presTotal {α : Type} {C : String → Prop}
    {g : RunState → α → RunState} (hg : GoodStep C g) :
    PresIn (fun st => st.total = st.ledger.length) g := by
  intro st a h
  rcases hg st a with heq | ⟨id, d, _, heq⟩
  · rw [heq]; exact h
  · rw [heq]; simp [h]

theorem GoodStep.presEvents {α : Type} {C : String → Prop}
    {g : RunState → α → RunState} (hg : GoodStep C g) :
    PresIn (fun st => st.events = pairsOf st.ledger) g := by
  intro st a h
  rcases hg st a with heq | ⟨id, d, _, heq⟩
  · rw [heq]; exact h
  · rw [heq]; simp [pairsOf_append, pairsOf, h]

theorem ssProcessApp_goodStep (scraped : List String) (f : Nat → Fetch PyRecord) :
    GoodStep (fun id => scraped.contains id = false) (ssProcessApp scraped f) := by
  intro st a
  unfold ssProcessApp
  cases hc : scraped.contains (toString a) with
  | true => simp
  | false =>
    cases hf : fetch_app_details (f a) with
    | none => simp
    | some d =>
      cases hd : d.isEmpty with
      | true => simp [hd]
      | false =>
        right
        exact ⟨toString a, d, hc, by simp [hd]⟩

theorem rawgProcessGame_goodStep (scraped : List String) (detail : String → Option PyRecord) :
    GoodStep (fun id => scraped.contains id = false) (rawgProcessGame scraped detail) := by
  intro st g
  simp only [rawgProcessGame]
  cases hc : scraped.contains (pyStr (getKey g "id")) with
  | true => left; simp
  | false =>
    cases hf : detail (pyStr (getKey g "id")) with
    | none => left; simp
    | some d =>
      cases hd : rawgDetailOK d with
      | true =>
        right
        exact ⟨pyStr (getKey g "id"), d, hc, by simp [hd]⟩
      | false => left; simp [hd]

/-- The page-level step of SteamSpyScraper.scrape: list one page, skip it if
empty, otherwise run the per-app loop. -/
theorem ssPageStep_ledgerGrows (scraped : List String) (pr : Nat → Fetch (List Nat))
    (f : Nat → Fetch PyRecord) :
    LedgerGrows (fun id => scraped.contains id = false)
      (fun st page =>
        let apps := get_all_apps (pr page)
        if apps.isEmpty then st else ssPage scraped f st apps) := by
  intro st p
  by_cases h : (get_all_apps (pr p)).isEmpty
  · exact ⟨[], by simp [h], by simp⟩
  · simpa [h, ssPage] using
      ((ssProcessApp_goodStep scraped f).ledgerGrows.foldlGrows) st (get_all_apps (pr p))

theorem ssPageStep_pres (scraped : List String) (pr : Nat → Fetch (List Nat))
    (f : Nat → Fetch PyRecord) (P : RunState → Prop)
    (hP : PresIn P (ssProcessApp scraped f)) :
    PresIn P (fun st page =>
        let apps := get_all_apps (pr page)
        if apps.isEmpty then st else ssPage scraped f st apps) := by
  intro st p hp
  by_cases h : (get_all_apps (pr p)).isEmpty
  · simpa [h] using hp
  · simpa [h, ssPage] using hP.foldlPres st (get_all_apps (pr p)) hp

/-- Run-level invariants of SteamSpyScraper.scrape: every identifier the run
appends to the ledger was absent from the progress set loaded at session
start; the returned count equals the number of ledger appends; and the event
trace consists of one (write, mark) pair per ledger entry, in that order. -/
theorem ssScrape_invariants (pages : Nat) (pr : Nat → Fetch (List Nat))
    (f : Nat → Fetch PyRecord) (L : Option (List String)) :
    (∀ id ∈ (SteamSpyScraper.scrape pages pr f L).run.ledger,
        (FileSystem.read_lines L).contains id = false)
    ∧ (SteamSpyScraper.scrape pages pr f L).run.total
        = (SteamSpyScraper.scrape pages pr f L).run.ledger.length
    ∧ (SteamSpyScraper.scrape pages pr f L).run.events
        = pairsOf (SteamSpyScraper.scrape pages pr f L).run.ledger := by
  have hgrow := (ssPageStep_ledgerGrows (FileSystem.read_lines L) pr f).foldlGrows
    RunState.init (List.range pages)
  have htot := (ssPageStep_pres (FileSystem.read_lines L) pr f _
    (ssProcessApp_goodStep _ f).presTotal).foldlPres RunState.init (List.range pages)
  have hev := (ssPageStep_pres (FileSystem.read_lines L) pr f _
    (ssProcessApp_goodStep _ f).presEvents).foldlPres RunState.init (List.range pages)
  obtain ⟨t, ht, hct⟩ := hgrow
  refine ⟨?_, ?_, ?_⟩
  · intro id hid
    apply hct
    have : (SteamSpyScraper.scrape pages pr f L).run.ledger = t := by
      simpa [SteamSpyScraper.scrape, RunState.init] using ht
    rwa [this] at hid
  · exact htot rfl
  · exact hev rfl

theorem rawgPages_ledgerGrows (scraped : List String)
    (lr : Nat → Option (List (String × List PyRecord)))
    (detail : String → Option PyRecord) :
    ∀ (ps : List Nat) (page : Nat) (st : RunState),
      ∃ t, (rawgPages scraped lr detail ps page st).1.ledger = st.ledger ++ t
        ∧ ∀ id ∈ t, scraped.contains id = false := by
  intro ps
  induction ps with
  | nil => exact fun page st => ⟨[], by simp [rawgPages], by simp⟩
  | cons p rest ih =>
    intro page st
    unfold rawgPages
    cases lr p with
    | none => exact ⟨[], by simp, by simp⟩
    | some data =>
      cases data with
      | nil => exact ⟨[], by simp, by simp⟩
      | cons q qs =>
        dsimp only
        rw [if_neg (by simp)]
        cases ((q :: qs).find? (fun r => r.1 == "results")).map (fun r => r.2) with
        | none => exact ⟨[], by simp, by simp⟩
        | some games =>
          obtain ⟨t1, ht1, hc1⟩ :=
            (rawgProcessGame_goodStep scraped detail).ledgerGrows.foldlGrows st games
          obtain ⟨t2, ht2, hc2⟩ := ih p (games.foldl (rawgProcessGame scraped detail) st)
          refine ⟨t1 ++ t2, ?_, ?_⟩
          · simp only at ht1
            rw [ht2, ht1, List.append_assoc]
          · intro id hid
            rcases List.mem_append.mp hid with h | h
            · exact hc1 id h
            · exact hc2 id h

theorem rawgPages_pres (scraped : List String)
    (lr : Nat → Option (List (String × List PyRecord)))
    (detail : String → Option PyRecord) (P : RunState → Prop)
    (hP : PresIn P (rawgProcessGame scraped detail)) :
    ∀ (ps : List Nat) (page : Nat) (st : RunState),
      P st → P (rawgPages scraped lr detail ps page st).1 := by
  intro ps
  induction ps with
  | nil => intro page st h; simpa [rawgPages] using h
  | cons p rest ih =>
    intro page st h
    unfold rawgPages
    cases lr p with
    | none => exact h
    | some data =>
      cases data with
      | nil => exact h
      | cons q qs =>
        dsimp only
        rw [if_neg (by simp)]
        cases ((q :: qs).find? (fun r => r.1 == "results")).map (fun r => r.2) with
        | none => exact h
        | some games => exact ih p _ (hP.foldlPres st games h)

/-- Run-level invariants of RAWGScraper.scrape, as for SteamSpy. -/
theorem rawgScrape_invariants (pages : Nat)
    (lr : Nat → Option (List (String × List PyRecord)))
    (detail : String → Option PyRecord) (L : Option (List String)) :
    (∀ id ∈ (RAWGScraper.scrape pages lr detail L).run.ledger,
        (FileSystem.read_lines L).contains id = false)
    ∧ (RAWGScraper.scrape pages lr detail L).run.total
        = (RAWGScraper.scrape pages lr detail L).run.ledger.length
    ∧ (RAWGScraper.scrape pages lr detail L).run.events
        = pairsOf (RAWGScraper.scrape pages lr detail L).run.ledger := by
  have hrun : (RAWGScraper.scrape pages lr detail L).run
      = (rawgPages (FileSystem.read_lines L) lr detail (List.range' 1 pages) 0 RunState.init).1 := by
    unfold RAWGScraper.scrape
    by_cases h : resolvesMethod RAWGScraper.methods "save_metadata" <;> simp [h]
  obtain ⟨t, ht, hct⟩ := rawgPages_ledgerGrows (FileSystem.read_lines L) lr detail
    (List.range' 1 pages) 0 RunState.init
  refine ⟨?_, ?_, ?_⟩
  · intro id hid
    apply hct
    rw [hrun, ht] at hid
    simpa [RunState.init] using hid
  · rw [hrun]
    exact rawgPages_pres _ lr detail _
      (rawgProcessGame_goodStep _ detail).presTotal (List.range' 1 pages) 0 RunState.init rfl
  · rw [hrun]
    exact rawgPages_pres _ lr detail _
      (rawgProcessGame_goodStep _ detail).presEvents (List.range' 1 pages) 0 RunState.init rfl

/-- A ledger line that strips to itself and is nonblank is found again by
FileSystem.read_lines (identifiers written by the scrapers are decimal
digit strings, which have this property). -/
theorem mem_read_lines_of_clean (s : String) (ls : List String)
    (h : s ∈ ls) (hs : pyStrip s = s) (hne : s ≠ "") :
    s ∈ FileSystem.read_lines (some ls) := by
  unfold FileSystem.read_lines
  rw [List.mem_dedup]
  apply List.mem_filter.mpr
  constructor
  · have hmap := List.mem_map_of_mem pyStrip h
    rwa [hs] at hmap
  · simpa using hne

/-! RateLimiter lemmas. -/

/-- The completion of any acquisition is at least `interval` after the
`last_called` value the limiter held when the caller entered: either the
caller sleeps exactly up to `last_called + interval`, or `now` is already
past that point. -/
theorem RateLimiter.aenter_low (rl : RateLimiter) (now : Int) :
    rl.last_called + rl.interval ≤ (rl.aenter now).2.1 := by
  unfold RateLimiter.aenter
  dsimp only
  split <;> omega

theorem spaced_cons (T a : Int) (l : List Int) :
    spaced T (a :: l) ↔ (∀ b ∈ l.head?, a + T ≤ b) ∧ spaced T l := by
  cases l <;> simp [spaced]

theorem spaced_mono {T1 T2 : Int} (h : T2 ≤ T1) :
    ∀ l : List Int, spaced T1 l → spaced T2 l := by
  intro l
  induction l with
  | nil => intro; trivial
  | cons a l ih =>
    cases l with
    | nil => intro; trivial
    | cons b bs =>
      intro hs
      exact ⟨by have := hs.1; omega, ih hs.2⟩

/-- Consecutive completion times of a serialized acquisition sequence are at
least `interval` apart, and the first completion is at least `interval`
after the initial `last_called`. -/
theorem runAcquires_spacing :
    ∀ (ts : List Int) (rl : RateLimiter),
      spaced rl.interval ((runAcquires rl ts).map Prod.snd)
      ∧ ∀ c ∈ ((runAcquires rl ts).map Prod.snd).head?,
          rl.last_called + rl.interval ≤ c := by
  intro ts
  induction ts with
  | nil => exact fun rl => ⟨trivial, by simp [runAcquires]⟩
  | cons t ts ih =>
    intro rl
    have hun : runAcquires rl (t :: ts)
        = ((rl.aenter t).1, (rl.aenter t).2.1) :: runAcquires (rl.aenter t).2.2 ts := rfl
    constructor
    · rw [hun, List.map_cons]
      apply (spaced_cons _ _ _).mpr
      constructor
      · intro b hb
        exact (ih (rl.aenter t).2.2).2 b hb
      · exact (ih (rl.aenter t).2.2).1
    · intro c hc
      rw [hun, List.map_cons, List.head?_cons] at hc
      simp only [Option.mem_def, Option.some.injEq] at hc
      rw [← hc]
      exact RateLimiter.aenter_low rl t

/-- With interval 0 and a monotone clock, no acquisition ever sleeps. -/
theorem runAcquires_nosleep :
    ∀ (ts : List Int) (rl : RateLimiter), rl.interval = 0 →
      monoFrom rl.last_called ts →
      ∀ p ∈ runAcquires rl ts, p.1 = 0 := by
  intro ts
  induction ts with
  | nil =>
    intro rl _ _ p hp
    simp [runAcquires] at hp
  | cons t ts ih =>
    intro rl h0 hm p hp
    have hm1 : rl.last_called ≤ t := hm.1
    have hnw : ¬ (0 < rl.interval - (t - rl.last_called)) := by omega
    have hs : (rl.aenter t).1 = 0 := by
      unfold RateLimiter.aenter
      dsimp only
      rw [if_neg hnw]
    have hun : runAcquires rl (t :: ts)
        = ((rl.aenter t).1, (rl.aenter t).2.1) :: runAcquires (rl.aenter t).2.2 ts := rfl
    rw [hun] at hp
    rcases List.mem_cons.mp hp with hhead | htail
    · rw [hhead]
      exact hs
    · apply ih (rl.aenter t).2.2 h0 _ p htail
      have hlast : (rl.aenter t).2.2.last_called = t := by
        have : (rl.aenter t).2.2.last_called = t + (rl.aenter t).1 := rfl
        rw [this, hs]
        omega
      rw [hlast]
      exact hm.2

/-! Concrete runs used by witnesses. -/

/-- A one-page, one-item SteamSpy run from an empty progress file. -/
def ssDemoRun1 : SSResult :=
  SteamSpyScraper.scrape 1 (fun _ => Fetch.ok [5])
    (fun _ => Fetch.ok [("appid", PyVal.num 5)]) none

/-- The progress file left behind by `ssDemoRun1`. -/
def ssDemoFile1 : Option (List String) := some ssDemoRun1.run.ledger

/-- The same run repeated against the ledger written by `ssDemoRun1`. -/
def ssDemoRun2 : SSResult :=
  SteamSpyScraper.scrape 1 (fun _ => Fetch.ok [5])
    (fun _ => Fetch.ok [("appid", PyVal.num 5)]) ssDemoFile1

/-! The claims. -/

/-- C1: write-then-mark ordering.  In every SteamSpy and every RAWG scrape
run, whenever the event trace contains a ledger append (`mark id`), an
output-file append (`write id`) for the same identifier occurs strictly
earlier in the trace: every ledgered identifier corresponds to a record
already written to the output sink. -/
theorem write_then_mark_ordering :
    (∀ (pages : Nat) (pr : Nat → Fetch (List Nat)) (f : Nat → Fetch PyRecord)
        (L : Option (List String)) (l1 l2 : List SinkEvent) (id : String),
        (SteamSpyScraper.scrape pages pr f L).run.events = l1 ++ SinkEvent.mark id :: l2 →
        SinkEvent.write id ∈ l1)
    ∧ (∀ (pages : Nat) (lr : Nat → Option (List (String × List PyRecord)))
        (detail : String → Option PyRecord) (L : Option (List String))
        (l1 l2 : List SinkEvent) (id : String),
        (RAWGScraper.scrape pages lr detail L).run.events = l1 ++ SinkEvent.mark id :: l2 →
        SinkEvent.write id ∈ l1) := by
  constructor
  · intro pages pr f L l1 l2 id h
    obtain ⟨_, _, hev⟩ := ssScrape_invariants pages pr f L
    rw [hev] at h
    exact pairsOf_mark_after_write _ l1 l2 id h
  · intro pages lr detail L l1 l2 id h
    obtain ⟨_, _, hev⟩ := rawgScrape_invariants pages lr detail L
    rw [hev] at h
    exact pairsOf_mark_after_write _ l1 l2 id h

/-- Witness for C1: a one-item run produces the trace
`[write "5", mark "5"]`, and the theorem applied to it places the write
before the mark. -/
theorem write_then_mark_ordering_witness :
    SinkEvent.write "5" ∈ [SinkEvent.write "5"] :=
  write_then_mark_ordering.1 1 (fun _ => Fetch.ok [5])
    (fun _ => Fetch.ok [("appid", PyVal.num 5)]) none
    [SinkEvent.write "5"] [] "5" (by decide)

/-- C2: resume idempotence.  Run 1 is any SteamSpy scrape; run 2 runs
against the progress file as run 1 left it (its prior lines plus the lines
run 1 appended).  Then run 2 writes no record whose identifier is in that
file, writes no identifier that run 1 wrote, and its returned count equals
the number of records it wrote (all of them new).  The `hclean` hypothesis
records that ledger lines survive `str.strip()` — true of the decimal
identifier strings the scraper writes. -/
theorem resume_idempotence
    (pages1 pages2 : Nat) (pr1 pr2 : Nat → Fetch (List Nat))
    (f1 f2 : Nat → Fetch PyRecord) (L0 file1 : Option (List String))
    (r1 r2 : SSResult)
    (h1 : r1 = SteamSpyScraper.scrape pages1 pr1 f1 L0)
    (hfile : file1 = some (L0.getD [] ++ r1.run.ledger))
    (h2 : r2 = SteamSpyScraper.scrape pages2 pr2 f2 file1)
    (hclean : ∀ s ∈ r1.run.ledger, pyStrip s = s ∧ s ≠ "") :
    (∀ id ∈ writtenIds r2.run.events, id ∉ FileSystem.read_lines file1)
    ∧ (∀ id ∈ writtenIds r2.run.events, id ∉ writtenIds r1.run.events)
    ∧ r2.ret = (writtenIds r2.run.events).length := by
  subst h1
  subst hfile
  subst h2
  obtain ⟨hfresh2, htot2, hev2⟩ := ssScrape_invariants pages2 pr2 f2
    (some (L0.getD [] ++ (SteamSpyScraper.scrape pages1 pr1 f1 L0).run.ledger))
  obtain ⟨_, _, hev1⟩ := ssScrape_invariants pages1 pr1 f1 L0
  have hw1 : writtenIds (SteamSpyScraper.scrape pages1 pr1 f1 L0).run.events
      = (SteamSpyScraper.scrape pages1 pr1 f1 L0).run.ledger := by
    rw [hev1, writtenIds_pairsOf]
  have hw2 : writtenIds (SteamSpyScraper.scrape pages2 pr2 f2
        (some (L0.getD [] ++ (SteamSpyScraper.scrape pages1 pr1 f1 L0).run.ledger))).run.events
      = (SteamSpyScraper.scrape pages2 pr2 f2
        (some (L0.getD [] ++ (SteamSpyScraper.scrape pages1 pr1 f1 L0).run.ledger))).run.ledger := by
    rw [hev2, writtenIds_pairsOf]
  have hnotin : ∀ id ∈ writtenIds (SteamSpyScraper.scrape pages2 pr2 f2
      (some (L0.getD [] ++ (SteamSpyScraper.scrape pages1 pr1 f1 L0).run.ledger))).run.events,
      id ∉ FileSystem.read_lines
        (some (L0.getD [] ++ (SteamSpyScraper.scrape pages1 pr1 f1 L0).run.ledger)) := by
    intro id hid hmem
    rw [hw2] at hid
    have hc := hfresh2 id hid
    have hcontains : (FileSystem.read_lines
        (some (L0.getD [] ++ (SteamSpyScraper.scrape pages1 pr1 f1 L0).run.ledger))).contains id
        = true := List.elem_eq_true_of_mem hmem
    rw [hcontains] at hc
    exact Bool.noConfusion hc
  refine ⟨hnotin, ?_, ?_⟩
  · intro id hid hmem1
    rw [hw1] at hmem1
    obtain ⟨hstrip, hne⟩ := hclean id hmem1
    have hfl : id ∈ (L0.getD [] ++ (SteamSpyScraper.scrape pages1 pr1 f1 L0).run.ledger) :=
      List.mem_append.mpr (Or.inr hmem1)
    exact hnotin id hid (mem_read_lines_of_clean id _ hfl hstrip hne)
  · rw [hw2]
    exact htot2

/-- Witness for C2: the one-item demo run repeated against its own ledger
writes nothing and returns 0, the number of its (zero) writes. -/
theorem resume_idempotence_witness :
    ssDemoRun2.ret = (writtenIds ssDemoRun2.run.events).length :=
  (resume_idempotence 1 1 (fun _ => Fetch.ok [5]) (fun _ => Fetch.ok [5])
    (fun _ => Fetch.ok [("appid", PyVal.num 5)]) (fun _ => Fetch.ok [("appid", PyVal.num 5)])
    none ssDemoFile1 ssDemoRun1 ssDemoRun2 rfl rfl rfl (by decide)).2.2

/-- C3: the IGDB 401 handler (src/IGDBScraper.py lines 95-97, comment
`Retry once`) recurses into `_request` with no retry bound.  Against a
server that answers 401 to every request while re-authentication keeps
succeeding, the request never surfaces a failure within any finite retry
budget and issues one more API POST per unit of budget — it retries
unboundedly, not exactly once.  The second conjunct shows the intended
happy path: a single 401 followed by success re-authenticates and retries
once. -/
theorem igdb_auth_retry_unbounded :
    (∀ (fuel : Nat) (tok : Option String) (ac rc : Nat),
        (igdbRequest (fun _ => some "tok") (fun _ => IGDBResp.unauthorized) fuel ⟨tok, ac, rc⟩).2
          = none
        ∧ (igdbRequest (fun _ => some "tok") (fun _ => IGDBResp.unauthorized) fuel ⟨tok, ac, rc⟩).1.reqCalls
          = rc + fuel)
    ∧ igdbRequest (fun _ => some "tok")
        (fun k => if k == 0 then IGDBResp.unauthorized else IGDBResp.ok [[("id", PyVal.num 1)]])
        2 ⟨some "t0", 0, 0⟩
      = (⟨some "tok", 1, 2⟩, some (some [[("id", PyVal.num 1)]])) := by
  constructor
  · intro fuel
    induction fuel with
    | zero => intro tok ac rc; exact ⟨rfl, rfl⟩
    | succ n ih =>
      intro tok ac rc
      cases tok with
      | none =>
        have h := ih none (ac + 1) (rc + 1)
        constructor
        · simpa [igdbRequest, get_access_token] using h.1
        · simp only [igdbRequest, get_access_token]
          rw [h.2]
          omega
      | some t =>
        have h := ih none ac (rc + 1)
        constructor
        · simpa [igdbRequest, get_access_token] using h.1
        · simp only [igdbRequest, get_access_token]
          rw [h.2]
          omega
  · decide

/-- C4 counterexample: the in-memory set loaded at session start is never
updated, so the same new identifier listed on two pages of one run is
fetched and persisted twice — the claimed within-session `isDone` skip does
not happen. -/
theorem mark_done_inmemory_counterexample :
    (SteamSpyScraper.scrape 2 (fun _ => Fetch.ok [42])
        (fun _ => Fetch.ok [("appid", PyVal.num 42), ("name", PyVal.str "g")])
        none).run.ledger = ["42", "42"]
    ∧ (SteamSpyScraper.scrape 2 (fun _ => Fetch.ok [42])
        (fun _ => Fetch.ok [("appid", PyVal.num 42), ("name", PyVal.str "g")])
        none).run.output.length = 2 := by decide

/-- C4 amended: `save_progress` appends the identifier to the ledger file —
every persisted record has a matching ledger append (first conjunct) — but
it does not insert into the in-memory set loaded at session start, so a
marked identifier is skipped only by a later run that reloads the ledger;
encountered again in the same session it is re-fetched and re-written
(second conjunct: the duplicate run persists the item twice). -/
theorem save_progress_appends_only :
    (∀ (pages : Nat) (pr : Nat → Fetch (List Nat)) (f : Nat → Fetch PyRecord)
        (L : Option (List String)),
        (SteamSpyScraper.scrape pages pr f L).run.ledger
          = writtenIds (SteamSpyScraper.scrape pages pr f L).run.events)
    ∧ (SteamSpyScraper.scrape 2 (fun _ => Fetch.ok [42])
        (fun _ => Fetch.ok [("appid", PyVal.num 42), ("name", PyVal.str "g")])
        none).run.total = 2 := by
  constructor
  · intro pages pr f L
    obtain ⟨_, _, hev⟩ := ssScrape_invariants pages pr f L
    rw [hev, writtenIds_pairsOf]
  · decide

/-- C5: session completion is broken for two of the three adapters.
`save_metadata` resolves neither on RAWGScraper nor on IGDBScraper (nor on
BaseScraper): every RAWG scrape that reaches the end of its pagination loop
raises AttributeError instead of writing metadata and returning, and every
IGDB scrape either hangs in the unbounded 401 retry or raises the same way.
Only SteamSpyScraper (which calls `fs.save_json` directly) writes its
metadata and returns its count. -/
theorem save_metadata_attribute_error :
    resolvesMethod RAWGScraper.methods "save_metadata" = false
    ∧ resolvesMethod IGDBScraper.methods "save_metadata" = false
    ∧ (∀ (pages : Nat) (lr : Nat → Option (List (String × List PyRecord)))
        (detail : String → Option PyRecord) (L : Option (List String)),
        (RAWGScraper.scrape pages lr detail L).ret
          = PyResult.raised "AttributeError: RAWGScraper object has no attribute save_metadata"
        ∧ (RAWGScraper.scrape pages lr detail L).metadataWritten = none)
    ∧ (∀ (pages fuel : Nat) (ar : Nat → Option String) (mr : Nat → IGDBResp)
        (L : Option (List String)),
        (IGDBScraper.scrape pages fuel ar mr L).ret = PyResult.hung
        ∨ (IGDBScraper.scrape pages fuel ar mr L).ret
          = PyResult.raised "AttributeError: IGDBScraper object has no attribute save_metadata")
    ∧ (∀ (pages : Nat) (pr : Nat → Fetch (List Nat)) (f : Nat → Fetch PyRecord)
        (L : Option (List String)),
        (SteamSpyScraper.scrape pages pr f L).metadata
          = { pages_scraped := pages,
              apps_scraped := (SteamSpyScraper.scrape pages pr f L).run.total }
        ∧ (SteamSpyScraper.scrape pages pr f L).ret
          = (SteamSpyScraper.scrape pages pr f L).run.total) := by
  refine ⟨by decide, by decide, ?_, ?_, ?_⟩
  · intro pages lr detail L
    have hres : resolvesMethod RAWGScraper.methods "save_metadata" = false := by decide
    constructor <;> simp [RAWGScraper.scrape, hres]
  · intro pages fuel ar mr L
    unfold IGDBScraper.scrape
    cases hp : igdbPages (FileSystem.read_lines L) ar mr fuel 500 (List.range pages) 0
        ⟨none, 0, 0⟩ RunState.init with
    | mk run pb =>
      cases pb with
      | mk page b =>
        cases b with
        | false => left; simp [hp]
        | true =>
          right
          have hres : resolvesMethod IGDBScraper.methods "save_metadata" = false := by decide
          simp [hp, hres]
  · intro pages pr f L
    exact ⟨rfl, rfl⟩

/-- C6 counterexample: with the page listing empty on the third page
(index 2) of a configured 10-page SteamSpy run, the engine does not stop:
all 10 page listings are fetched, an item listed on the last page is still
persisted, and the emitted metadata reports `pages_scraped = 10` (the
configured count), not 3. -/
theorem empty_page_soft_stop_counterexample :
    (SteamSpyScraper.scrape 10
        (fun p => if p == 2 then Fetch.ok [] else Fetch.ok [100 + p])
        (fun a => Fetch.ok [("appid", PyVal.num (Int.ofNat a))])
        none).metadata.pages_scraped = 10
    ∧ (SteamSpyScraper.scrape 10
        (fun p => if p == 2 then Fetch.ok [] else Fetch.ok [100 + p])
        (fun a => Fetch.ok [("appid", PyVal.num (Int.ofNat a))])
        none).pagesFetched = 10
    ∧ "109" ∈ (SteamSpyScraper.scrape 10
        (fun p => if p == 2 then Fetch.ok [] else Fetch.ok [100 + p])
        (fun a => Fetch.ok [("appid", PyVal.num (Int.ofNat a))])
        none).run.ledger
    ∧ (SteamSpyScraper.scrape 10
        (fun p => if p == 2 then Fetch.ok [] else Fetch.ok [100 + p])
        (fun a => Fetch.ok [("appid", PyVal.num (Int.ofNat a))])
        none).run.total = 9 := by decide

/-- C6 amended: SteamSpyScraper treats an empty page as skip-and-continue
(`continue`, not `break`): every configured page index is fetched, and the
emitted SessionMetadata reports `pages_scraped` equal to the configured page
count regardless of how many pages were empty; the empty page itself is
handled without error and metadata is still emitted. -/
theorem empty_page_continue_policy (pages : Nat) (pr : Nat → Fetch (List Nat))
    (f : Nat → Fetch PyRecord) (L : Option (List String)) :
    (SteamSpyScraper.scrape pages pr f L).metadata.pages_scraped = pages
    ∧ (SteamSpyScraper.scrape pages pr f L).pagesFetched = pages
    ∧ (SteamSpyScraper.scrape pages pr f L).metadata.apps_scraped
        = (SteamSpyScraper.scrape pages pr f L).run.total :=
  ⟨rfl, rfl, rfl⟩

/-- C7: rate-limiter minimum spacing.  For any serialized sequence of
acquisitions through one RateLimiter, consecutive completion times are at
least `interval` apart; and with `interval = 0` and a monotone clock no
acquisition ever sleeps. -/
theorem rate_limiter_min_spacing (rl : RateLimiter) (ts : List Int) :
    spaced rl.interval ((runAcquires rl ts).map Prod.snd)
    ∧ (rl.interval = 0 → monoFrom rl.last_called ts →
        ∀ p ∈ runAcquires rl ts, p.1 = 0) :=
  ⟨(runAcquires_spacing ts rl).1, fun h0 hm => runAcquires_nosleep ts rl h0 hm⟩

/-- Witness for C7: two acquisitions at times 1 and 2 through a zero-interval
limiter complete with the required spacing, and the first one slept 0. -/
theorem rate_limiter_min_spacing_witness :
    spaced 0 ((runAcquires (RateLimiter.mkNew 0) [1, 2]).map Prod.snd)
    ∧ ((0 : Int), (1 : Int)).1 = 0 :=
  ⟨(rate_limiter_min_spacing (RateLimiter.mkNew 0) [1, 2]).1,
   (rate_limiter_min_spacing (RateLimiter.mkNew 0) [1, 2]).2 rfl
     ⟨by decide, by decide, trivial⟩ ((0 : Int), (1 : Int)) (by decide)⟩

/-- C8: sentinel non-persistence.  A 200 payload whose `appid` is the
SteamSpy hidden-data sentinel 999999 is filtered to None by
`_fetch_app_details`; any item whose detail fetch yields None leaves the run
state untouched (no output record, no ledger mark — so it stays eligible for
a future run); and a whole run in which every fetch returns the sentinel
ends with empty output and empty ledger. -/
theorem sentinel_non_persistence :
    (∀ d : PyRecord, getKey d "appid" = some (PyVal.num 999999) →
        fetch_app_details (Fetch.ok d) = none)
    ∧ (∀ (scraped : List String) (f : Nat → Fetch PyRecord) (st : RunState) (appid : Nat),
        fetch_app_details (f appid) = none → ssProcessApp scraped f st appid = st)
    ∧ (SteamSpyScraper.scrape 1 (fun _ => Fetch.ok [7])
        (fun _ => Fetch.ok [("appid", PyVal.num 999999), ("name", PyVal.str "x")])
        none).run = RunState.init := by
  refine ⟨?_, ?_, by decide⟩
  · intro d h
    simp [fetch_app_details, h]
  · intro scraped f st appid h
    simp [ssProcessApp, h]

/-- Witness for C8: the sentinel payload is dropped and processing item 7
under a sentinel-returning fetch leaves the initial state unchanged. -/
theorem sentinel_non_persistence_witness :
    fetch_app_details (Fetch.ok [("appid", PyVal.num 999999)]) = none
    ∧ ssProcessApp [] (fun _ => Fetch.ok [("appid", PyVal.num 999999)]) RunState.init 7
        = RunState.init :=
  ⟨sentinel_non_persistence.1 [("appid", PyVal.num 999999)] (by decide),
   sentinel_non_persistence.2.1 [] (fun _ => Fetch.ok [("appid", PyVal.num 999999)])
     RunState.init 7 (by decide)⟩

/-- C9: the IGDB rate-limiter interval is the constructor delay clamped
from below to 0.25 s (250000 µs): the clamp is exactly `max delay 250000`,
never below 250000, overrides any smaller delay, and every acquisition
sequence through the resulting limiter is spaced at least 250000 µs apart. -/
theorem igdb_min_interval_clamp (delay : Int) :
    IGDBScraper.rateInterval delay = max delay 250000
    ∧ 250000 ≤ IGDBScraper.rateInterval delay
    ∧ (delay < 250000 → IGDBScraper.rateInterval delay = 250000)
    ∧ ∀ ts : List Int,
        spaced 250000
          ((runAcquires (RateLimiter.mkNew (IGDBScraper.rateInterval delay)) ts).map Prod.snd) := by
  refine ⟨rfl, le_max_right _ _, fun h => max_eq_right (le_of_lt h), fun ts => ?_⟩
  exact spaced_mono (le_max_right delay 250000) _
    (runAcquires_spacing ts (RateLimiter.mkNew (IGDBScraper.rateInterval delay))).1

/-- Witness for C9: a 100 µs delay is clamped to 250000 µs, and a concrete
acquisition sequence through the clamped limiter is 250000-spaced. -/
theorem igdb_min_interval_clamp_witness :
    IGDBScraper.rateInterval 100 = 250000
    ∧ spaced 250000
        ((runAcquires (RateLimiter.mkNew (IGDBScraper.rateInterval 100)) [0, 1]).map Prod.snd) :=
  ⟨(igdb_min_interval_clamp 100).2.2.1 (by decide),
   (igdb_min_interval_clamp 100).2.2.2 [0, 1]⟩

/-- C10: a missing progress file reads back as the empty set
(`FileSystem.read_lines` returns empty rather than raising), so a first run
starts with no identifier considered done. -/
theorem read_lines_missing_file :
    FileSystem.read_lines none = [] ∧ ∀ s : String, s ∉ FileSystem.read_lines none :=
  ⟨rfl, by simp [FileSystem.read_lines]⟩
